import Mathlib

/-!
Shallow embedding of `src/app.py` (Career Graph Explorer, a Streamlit app).

The app keeps session state (`mode`, search terms, `graph_data`, `history`,
token/cost counters), calls the Gemini API through `get_gemini_response`,
parses the JSON reply, and assembles a node/edge graph from the parsed
`center_node` / `connections` / `sub_connections` data.

Python dictionaries produced by `json.loads` are modelled by the `Json`
inductive; Streamlit session state is the `AppState` structure; the render
pass fragments that the verification targets (the `should_fetch` computation,
the fetch handler, the node-click handler, the graph build loop) are
translated function by function.
-/

namespace CareerGraph

/-- The two exploration modes offered by the sidebar radio widget
(`"Company Discovery"` and `"Role Search"`). -/
inductive Mode where
  | companyDiscovery
  | roleSearch
deriving DecidableEq

/-- The string value each mode has in the Python source. -/
def modeStr : Mode → String
  | .companyDiscovery => "Company Discovery"
  | .roleSearch => "Role Search"

/-- Sidebar filter selections, as passed to `get_gemini_response`
(`filters` dict built at lines 334-339 of `src/app.py`). -/
structure Filters where
  industry : String
  size : String
  style : String
  function : String
deriving DecidableEq

/-- Python values produced by `json.loads`: the dynamic data the app stores in
`st.session_state.graph_data` and walks with subscript / `.get` access.
Numbers keep their lexeme, since the app never reads a numeric field. -/
inductive Json where
  | null
  | bool (b : Bool)
  | num (lexeme : String)
  | str (s : String)
  | arr (elems : List Json)
  | obj (fields : List (String × Json))

/-- Dictionary lookup on the field list of a `Json.obj` (Python `d[k]` /
`d.get(k)`; keys are unique by construction, see `setField`). -/
def lookupField : List (String × Json) → String → Option Json
  | [], _ => none
  | (k0, v0) :: rest, k => if k0 = k then some v0 else lookupField rest k

/-- Dictionary assignment `d[k] = v` on the field list of a `Json.obj`:
overwrite in place when the key exists, append otherwise (Python dict
insertion-order semantics). -/
def setField : List (String × Json) → String → Json → List (String × Json)
  | [], k, v => [(k, v)]
  | (k0, v0) :: rest, k, v =>
      if k0 = k then (k0, v) :: rest else (k0, v0) :: setField rest k v

/-- Python `d.get(k)`: `none` models both a missing key and Python `None`.
Only ever applied to dict values in the source. -/
def jGetOpt : Json → String → Option Json
  | .obj fs, k => lookupField fs k
  | _, _ => none

/-- Python `d.get(k, default)`. -/
def jGetD (j : Json) (k : String) (d : Json) : Json :=
  (jGetOpt j k).getD d

/-- Python `d[k] = v`: succeeds only on a dict; `none` models the `TypeError`
raised on any other value. -/
def jSetKey : Json → String → Json → Option Json
  | .obj fs, k, v => some (.obj (setField fs k v))
  | _, _, _ => none

/-- Python truthiness of a number lexeme: zero iff every mantissa digit is 0
(`0`, `-0.00`, `0e5` are falsy). -/
def numIsZero (lexeme : String) : Bool :=
  ((lexeme.data.takeWhile fun c => c ≠ 'e' ∧ c ≠ 'E').filter Char.isDigit).all
    fun c => c = '0'

/-- Python truthiness of a parsed JSON value (the `if data:` test of the fetch
handler): `None`, `False`, zero, and empty containers are falsy. -/
def jTruthy : Json → Bool
  | .null => false
  | .bool b => b
  | .num lexeme => ¬ numIsZero lexeme
  | .str s => s ≠ ""
  | .arr elems => ¬ elems.isEmpty
  | .obj fields => ¬ fields.isEmpty

/-- JSON whitespace accepted around tokens by the JSON grammar. -/
def isJsonWs (c : Char) : Bool :=
  c = ' ' ∨ c = '\t' ∨ c = '\n' ∨ c = '\r'

/-- Drop leading JSON whitespace. -/
def skipWs (l : List Char) : List Char :=
  l.dropWhile isJsonWs

/-- Value of one hexadecimal digit. -/
def hexDigitVal (c : Char) : Option Nat :=
  if '0' ≤ c ∧ c ≤ '9' then some (c.toNat - '0'.toNat)
  else if 'a' ≤ c ∧ c ≤ 'f' then some (c.toNat - 'a'.toNat + 10)
  else if 'A' ≤ c ∧ c ≤ 'F' then some (c.toNat - 'A'.toNat + 10)
  else none

/-- Modelled from the spec: the Model Gateway must "parse the remaining text
as structured data"; the source delegates this to the external `json.loads`.
This parses the body of a JSON string after the opening quote, returning the
decoded characters and the input after the closing quote; strict mode rejects
raw control characters and unknown escapes. -/
def parseStringBody : List Char → Option (List Char × List Char)
  | [] => none
  | '"' :: rest => some ([], rest)
  | '\\' :: '"' :: rest => (parseStringBody rest).map fun p => ('"' :: p.1, p.2)
  | '\\' :: '\\' :: rest => (parseStringBody rest).map fun p => ('\\' :: p.1, p.2)
  | '\\' :: '/' :: rest => (parseStringBody rest).map fun p => ('/' :: p.1, p.2)
  | '\\' :: 'b' :: rest => (parseStringBody rest).map fun p => ('\x08' :: p.1, p.2)
  | '\\' :: 'f' :: rest => (parseStringBody rest).map fun p => ('\x0c' :: p.1, p.2)
  | '\\' :: 'n' :: rest => (parseStringBody rest).map fun p => ('\n' :: p.1, p.2)
  | '\\' :: 'r' :: rest => (parseStringBody rest).map fun p => ('\r' :: p.1, p.2)
  | '\\' :: 't' :: rest => (parseStringBody rest).map fun p => ('\t' :: p.1, p.2)
  | '\\' :: 'u' :: h1 :: h2 :: h3 :: h4 :: rest =>
      match hexDigitVal h1, hexDigitVal h2, hexDigitVal h3, hexDigitVal h4 with
      | some x1, some x2, some x3, some x4 =>
          (parseStringBody rest).map fun p =>
            (Char.ofNat (((x1 * 16 + x2) * 16 + x3) * 16 + x4) :: p.1, p.2)
      | _, _, _, _ => none
  | '\\' :: _ => none
  | c :: rest =>
      if c.toNat < 32 then none
      else (parseStringBody rest).map fun p => (c :: p.1, p.2)

/-- Integer part of a JSON number: `0` or a nonzero digit followed by digits. -/
def parseIntDigits : List Char → Option (List Char × List Char)
  | '0' :: rest => some (['0'], rest)
  | c :: rest =>
      if '1' ≤ c ∧ c ≤ '9' then
        some (c :: rest.takeWhile Char.isDigit, rest.dropWhile Char.isDigit)
      else none
  | [] => none

/-- Optional fraction part of a JSON number. -/
def parseFracPart : List Char → Option (List Char × List Char)
  | '.' :: rest =>
      let ds := rest.takeWhile Char.isDigit
      if ds.isEmpty then none else some ('.' :: ds, rest.dropWhile Char.isDigit)
  | l => some ([], l)

/-- Optional exponent part of a JSON number. -/
def parseExpPart : List Char → Option (List Char × List Char)
  | c :: rest =>
      if c = 'e' ∨ c = 'E' then
        match rest with
        | s :: rest2 =>
            if s = '+' ∨ s = '-' then
              let ds := rest2.takeWhile Char.isDigit
              if ds.isEmpty then none
              else some (c :: s :: ds, rest2.dropWhile Char.isDigit)
            else
              let ds := rest.takeWhile Char.isDigit
              if ds.isEmpty then none
              else some (c :: ds, rest.dropWhile Char.isDigit)
        | [] => none
      else some ([], c :: rest)
  | [] => some ([], [])

/-- A JSON number; the lexeme is kept verbatim. -/
def parseNumber (l : List Char) : Option (String × List Char) :=
  let sl : List Char × List Char :=
    match l with
    | '-' :: rest => (['-'], rest)
    | _ => ([], l)
  match parseIntDigits sl.2 with
  | none => none
  | some (ip, l2) =>
      match parseFracPart l2 with
      | none => none
      | some (fp, l3) =>
          match parseExpPart l3 with
          | none => none
          | some (ep, l4) => some (String.mk (sl.1 ++ ip ++ fp ++ ep), l4)

/-- Modelled from the spec: the external `json.loads` document grammar. The
triple bundles, at each fuel level, the parser for one value, for the rest of
an array after `[`, and for the rest of an object after the opening brace.
Every recursive use lowers the fuel, so the recursion is structural; duplicate
object keys overwrite in insertion order exactly as a Python dict does. -/
def jsonParsers : Nat →
    (List Char → Option (Json × List Char)) ×
    (List Char → List Json → Option (Json × List Char)) ×
    (List Char → List (String × Json) → Option (Json × List Char))
  | 0 => (fun _ => none, fun _ _ => none, fun _ _ => none)
  | fuel + 1 =>
      let prev := jsonParsers fuel
      let pv := prev.1
      let pa := prev.2.1
      let po := prev.2.2
      ( fun l =>
          match skipWs l with
          | 'n' :: 'u' :: 'l' :: 'l' :: rest => some (.null, rest)
          | 't' :: 'r' :: 'u' :: 'e' :: rest => some (.bool true, rest)
          | 'f' :: 'a' :: 'l' :: 's' :: 'e' :: rest => some (.bool false, rest)
          | '"' :: rest => (parseStringBody rest).map fun p => (.str (String.mk p.1), p.2)
          | '[' :: rest => pa rest []
          | '\x7b' :: rest => po rest []
          | l2 => (parseNumber l2).map fun p => (.num p.1, p.2)
        ,
        fun l acc =>
          match skipWs l with
          | ']' :: rest => if acc.isEmpty then some (.arr [], rest) else none
          | l2 =>
              match pv l2 with
              | none => none
              | some (v, r) =>
                  match skipWs r with
                  | ',' :: r2 => pa r2 (acc ++ [v])
                  | ']' :: r2 => some (.arr (acc ++ [v]), r2)
                  | _ => none
        ,
        fun l acc =>
          match skipWs l with
          | '\x7d' :: rest => if acc.isEmpty then some (.obj [], rest) else none
          | '"' :: rest =>
              match parseStringBody rest with
              | none => none
              | some (kcs, r) =>
                  match skipWs r with
                  | ':' :: r2 =>
                      match pv r2 with
                      | none => none
                      | some (v, r3) =>
                          match skipWs r3 with
                          | ',' :: r4 => po r4 (setField acc (String.mk kcs) v)
                          | '\x7d' :: r5 => some (.obj (setField acc (String.mk kcs) v), r5)
                          | _ => none
                  | _ => none
          | _ => none )

/-- Parser for one JSON value at a given fuel. -/
def parseValue (fuel : Nat) : List Char → Option (Json × List Char) :=
  (jsonParsers fuel).1

/-- Modelled from the spec: `json.loads` accepts exactly one JSON document,
optionally surrounded by whitespace, and fails on any trailing data. -/
def json_loads_list (l : List Char) : Option Json :=
  match parseValue (2 * l.length + 4) l with
  | some (j, rest) => if (skipWs rest).isEmpty then some j else none
  | none => none

/-- String-level entry point of the JSON parsing model. -/
def json_loads (s : String) : Option Json :=
  json_loads_list s.data

/-- Whether `pat` is a prefix of the list (helper of the `str.replace` model). -/
def startsWithList : List Char → List Char → Bool
  | [], _ => true
  | _ :: _, [] => false
  | p :: ps, c :: cs => p = c ∧ startsWithList ps cs

/-- Fuelled left-to-right scan of Python `str.replace`: at each position,
either the pattern matches and is replaced (consuming the whole match), or
one character is copied.  One fuel unit is spent per position, so fuel equal
to the input length always suffices.  The `pat` nonemptiness guard is inert
for the two patterns the source uses. -/
def pyReplaceFuel (pat rep : List Char) : Nat → List Char → List Char
  | 0, l => l
  | _ + 1, [] => []
  | fuel + 1, c :: rest =>
      if ¬ pat.isEmpty ∧ startsWithList pat (c :: rest) then
        rep ++ pyReplaceFuel pat rep fuel (List.drop (pat.length - 1) rest)
      else
        c :: pyReplaceFuel pat rep fuel rest

/-- Python `str.replace` on character lists. -/
def pyReplaceL (l pat rep : List Char) : List Char :=
  pyReplaceFuel pat rep l.length l

/-- Python `s.replace(pat, rep)`. -/
def pyReplace (s pat rep : String) : String :=
  String.mk (pyReplaceL s.data pat.data rep.data)

/-- Characters removed by Python `str.strip()`. -/
def isPySpace (c : Char) : Bool :=
  c = ' ' ∨ c = '\t' ∨ c = '\n' ∨ c = '\r' ∨ c = '\x0b' ∨ c = '\x0c'

/-- Python `str.strip()` on character lists. -/
def pyStripL (l : List Char) : List Char :=
  ((l.dropWhile isPySpace).reverse.dropWhile isPySpace).reverse

/-- Python `s.strip()`. -/
def pyStrip (s : String) : String :=
  String.mk (pyStripL s.data)

/-- Line 189 of `src/app.py`:
`clean_text = response.text.replace("\x60\x60\x60json", "").replace("\x60\x60\x60", "").strip()`. -/
def clean_response (t : String) : String :=
  pyStrip (pyReplace (pyReplace t "\x60\x60\x60json" "") "\x60\x60\x60" "")

/-- Lines 105-110 of `src/app.py`: the Company Discovery filter block. -/
def cd_filter_text (f : Filters) : String :=
  "\n        STRICT CONSTRAINTS:\n        - Target Industry: " ++ f.industry ++
  "\n        - Company Size Preference: " ++ f.size ++
  "\n        - Work Style: " ++ f.style ++ "\n        "

/-- Lines 111-135 of `src/app.py`: the Company Discovery system instruction. -/
def cd_system_instruction (f : Filters) : String :=
  "\n        You are a Strategic Career Intelligence Engine focused on market discovery. \n        Analyze the user\x27s input (Company or Job Title) and return a 3-layer network graph of related companies.\n\n        " ++
  cd_filter_text f ++
  "\n\n        PART 1: CENTER NODE (Layer 0) - Provide \x27mission\x27, \x27positive_news\x27, \x27red_flags\x27 for the input entity.\n        PART 2: DIRECT CONNECTIONS (Layer 1) - Identify exactly 10 related entities (Competitors, Partners, Next-Step Companies) matching constraints.\n        PART 3: SECONDARY CONNECTIONS (Layer 2) - For EACH Layer 1 entity, identify 2 top related companies or technologies.\n\n        OUTPUT JSON STRUCTURE:\n        \x7b\n            \"center_node\": \x7b \"name\": \"Corrected Name\", \"type\": \"Company/Job\", \"mission\": \"...\", \"positive_news\": \"...\", \"red_flags\": \"...\" \x7d,\n            \"connections\": [\n                \x7b\n                    \"name\": \"Layer 1 Company\",\n                    \"reason\": \"Why related?\",\n                    \"sub_connections\": [\n                        \x7b\"name\": \"Layer 2 Company A\", \"reason\": \"Reason\"\x7d,\n                        \x7b\"name\": \"Layer 2 Company B\", \"reason\": \"Reason\"\x7d\n                    ]\n                \x7d\n            ]\n        \x7d\n        "

/-- Lines 140-144 of `src/app.py`: the Role Search filter block. -/
def rs_filter_text (f : Filters) : String :=
  "\n        STRICT CONSTRAINTS:\n        - Target Industry: " ++ f.industry ++
  "\n        - Preferred Role Function: " ++ f.function ++ "\n        "

/-- Lines 145-169 of `src/app.py`: the Role Search system instruction (the
query is interpolated into the PART 1 line). -/
def rs_system_instruction (query : String) (f : Filters) : String :=
  "\n        You are a Strategic Career Path Advisor. \n        Analyze the user\x27s input (a Seed Job Title) and return a 3-layer network graph mapping career progression.\n\n        " ++
  rs_filter_text f ++
  "\n\n        PART 1: CENTER NODE (Layer 0) - The Seed Job Title (" ++ query ++
  "). Provide \x27mission\x27, \x27positive_news\x27, \x27red_flags\x27 for this role.\n        PART 2: DIRECT CONNECTIONS (Layer 1) - Identify exactly 5 distinct **alternative or next-step career paths/roles** that fit the job\x27s core skills and constraints.\n        PART 3: SECONDARY CONNECTIONS (Layer 2) - For EACH Layer 1 role, identify 2-3 specific, high-value **certifications or key skills** that would help a candidate transition into THAT specific role.\n\n        OUTPUT JSON STRUCTURE:\n        \x7b\n            \"center_node\": \x7b \"name\": \"Corrected Name\", \"type\": \"Job Title\", \"mission\": \"...\", \"positive_news\": \"...\", \"red_flags\": \"...\" \x7d,\n            \"connections\": [\n                \x7b\n                    \"name\": \"Alternative Role Title\",\n                    \"reason\": \"Why this role is an alternative path?\",\n                    \"sub_connections\": [\n                        \x7b\"name\": \"Certification A\", \"reason\": \"Why this cert?\"\x7d,\n                        \x7b\"name\": \"Certification B\", \"reason\": \"Why this cert?\"\x7d\n                    ]\n                \x7d\n            ]\n        \x7d\n        "

/-- The `user_prompt` sent to the model for either mode
(lines 136 and 170 of `src/app.py`). -/
def build_user_prompt (mode : Mode) (query : String) (f : Filters) : String :=
  match mode with
  | .companyDiscovery => cd_system_instruction f ++ "\n\nUser Input: \x27" ++ query ++ "\x27"
  | .roleSearch => rs_system_instruction query f ++ "\n\nUser Input: \x27" ++ query ++ "\x27"

/-- Lines 82-94 of `src/app.py`: the credential is read from Streamlit secrets
with an environment-variable fallback (modelled as one coalesced `Option`);
`if not api_key` fails for a missing or empty key, and `initialize_gemini`
then returns `None` instead of a configured client. -/
def initialize_gemini (apiKey : Option String) : Bool :=
  match apiKey with
  | none => false
  | some k => k ≠ ""

/-- Result of the external `model.generate_content` call: either raw response
text or a raised exception (network/provider error). -/
inductive ModelOutcome where
  | text (t : String)
  | raised
deriving DecidableEq

/-- Observable result of `get_gemini_response`.  The source returns `None` on
every failure but shows a distinct `st.error` message for a missing credential
(line 90) versus an analysis failure (line 193); the constructors record which
message path was taken. -/
inductive GatewayResult where
  | ok (data : Json)
  | credential_missing
  | analysis_error

/-- Lines 96-194 of `src/app.py`: `get_gemini_response`.  The credential check
runs before the prompt is built and before the model is invoked; on a
successful call the token and cost counters are updated from the length/4
estimates, and only then is the response text cleaned and parsed.  A parse
failure is caught by the `except` block (`analysis_error`). -/
def get_gemini_response (apiKey : Option String) (mode : Mode) (query : String)
    (f : Filters) (outcome : ModelOutcome) (token_usage session_cost : ℚ) :
    GatewayResult × ℚ × ℚ :=
  if initialize_gemini apiKey = false then
    (.credential_missing, token_usage, session_cost)
  else
    let user_prompt := build_user_prompt mode query f
    match outcome with
    | .raised => (.analysis_error, token_usage, session_cost)
    | .text t =>
        let input_tokens : ℚ := (user_prompt.length : ℚ) / 4
        let output_tokens : ℚ := (t.length : ℚ) / 4
        let token_usage2 := token_usage + (input_tokens + output_tokens)
        let cost := (input_tokens / 1000) * (1 / 10000) + (output_tokens / 1000) * (2 / 10000)
        let session_cost2 := session_cost + cost
        match json_loads (clean_response t) with
        | some j => (.ok j, token_usage2, session_cost2)
        | none => (.analysis_error, token_usage2, session_cost2)

/-- Lines 66-79 of `src/app.py`: the Streamlit session state the app mutates.
`graph_data` holds the parsed JSON dict of the last successful fetch (with a
`mode` key added by the fetch handler), or `None`. -/
structure AppState where
  mode : Mode
  company_search_term : String
  role_search_term : String
  graph_data : Option Json
  history : List String
  token_usage : ℚ
  session_cost : ℚ

/-- Lines 341-346 of `src/app.py`: the active query is the search term of the
active mode. -/
def active_query_of (s : AppState) : String :=
  match s.mode with
  | .companyDiscovery => s.company_search_term
  | .roleSearch => s.role_search_term

/-- Python `g.get(k) == v` for a string `v`: true only when the key is present
and holds exactly that string. -/
def jFieldEqStr (g : Json) (k : String) (v : String) : Bool :=
  match jGetOpt g k with
  | some (.str t) => t = v
  | _ => false

/-- Line 359 of `src/app.py`:
`graph_data.get("center_node", \x7b\x7d).get("name") == active_query`. -/
def centerNameEqQuery (g : Json) (q : String) : Bool :=
  match jGetOpt (jGetD g "center_node" (.obj [])) "name" with
  | some (.str t) => t = q
  | _ => false

/-- Lines 353-361 of `src/app.py`: the auto-fetch decision, translated with
the same `if`/`elif` chain. -/
def should_fetch (gd : Option Json) (active_mode : Mode) (active_query : String) : Bool :=
  match gd with
  | none => true
  | some g =>
      if jFieldEqStr g "mode" (modeStr active_mode) = false then true
      else if centerNameEqQuery g active_query = false then true
      else false

/-- The contract stated by the specification: fetch exactly when the last
result is empty, or its stored mode differs, or its center name differs. -/
def shouldFetchSpec (gd : Option Json) (active_mode : Mode) (active_query : String) : Bool :=
  match gd with
  | none => true
  | some g =>
      ¬ jFieldEqStr g "mode" (modeStr active_mode) ∨ ¬ centerNameEqQuery g active_query

/-- Lines 363-384 of `src/app.py`: what the render pass does with the value
returned by `get_gemini_response`.  On a truthy dict the handler writes the
`mode` key, stores the dict in `graph_data`, and reads
`data["center_node"]["name"]`; the store happens before that read, so a
missing key raises `KeyError` (flag `true`) with the dict already stored.
Writing the `mode` key into a non-dict raises `TypeError` before the store;
a non-string name, which the source would propagate into the search term, is
flagged as a failed pass as well. -/
def handle_fetch_data (s : AppState) (active_mode : Mode) (active_query : String)
    (r : GatewayResult) : AppState × Bool :=
  match r with
  | .ok data =>
      if jTruthy data then
        match jSetKey data "mode" (.str (modeStr active_mode)) with
        | none => (s, true)
        | some data1 =>
            let s1 := { s with graph_data := some data1 }
            match (jGetOpt data1 "center_node").bind fun c => jGetOpt c "name" with
            | some (.str real_name) =>
                match active_mode with
                | .companyDiscovery =>
                    let s2 :=
                      if real_name ∈ s1.history then s1
                      else { s1 with history := s1.history ++ [real_name] }
                    let s3 :=
                      if active_query ≠ real_name then
                        { s2 with company_search_term := real_name }
                      else s2
                    (s3, false)
                | .roleSearch =>
                    let s2 :=
                      if active_query ≠ real_name then
                        { s1 with role_search_term := real_name }
                      else s1
                    (s2, false)
            | _ => (s1, true)
      else (s, false)
  | _ => (s, false)

/-- One fetch attempt of the render pass (lines 363-384 including the call to
`get_gemini_response` with its counter updates). -/
def run_fetch_pass (apiKey : Option String) (f : Filters) (s : AppState)
    (outcome : ModelOutcome) : AppState × Bool :=
  let m := s.mode
  let q := active_query_of s
  let r := get_gemini_response apiKey m q f outcome s.token_usage s.session_cost
  handle_fetch_data { s with token_usage := r.2.1, session_cost := r.2.2 } m q r.1

/-- Lines 603-608 of `src/app.py`: the clicked-node handler.  It acts only
when a node was clicked (truthy string), the node is not the current center,
and the active mode is Company Discovery; it then re-centers the search term
on the clicked node and clears `graph_data`. -/
def handle_node_click (s : AppState) (active_mode : Mode) (center_name : String)
    (clicked_node : Option String) : AppState :=
  match clicked_node with
  | some cn =>
      if cn ≠ "" ∧ cn ≠ center_name ∧ active_mode = .companyDiscovery then
        { s with mode := .companyDiscovery, company_search_term := cn, graph_data := none }
      else s
  | none => s

/-- A layer-2 entry of `sub_connections` (the fields the app reads). -/
structure SubConn where
  name : String
  reason : String
deriving DecidableEq

/-- A layer-1 entry of `connections`; `sub_connections` is optional
(`if "sub_connections" in item` in the source). -/
structure ConnectionEntity where
  name : String
  reason : String
  sub_connections : Option (List SubConn)
deriving DecidableEq

/-- The `center_node` fields the app reads (lines 390, 518-520). -/
structure CenterNode where
  name : String
  mission : String
  positive_news : String
  red_flags : String
deriving DecidableEq

/-- A fully-populated fetch result as the render pass consumes it. -/
structure CenterResult where
  center_node : CenterNode
  connections : List ConnectionEntity
deriving DecidableEq

/-- Decoder of one `sub_connections` entry. -/
def decodeSub (j : Json) : Option SubConn :=
  match jGetOpt j "name", jGetOpt j "reason" with
  | some (.str n), some (.str r) => some ⟨n, r⟩
  | _, _ => none

/-- Decoder of one `connections` entry. -/
def decodeConn (j : Json) : Option ConnectionEntity :=
  match jGetOpt j "name", jGetOpt j "reason" with
  | some (.str n), some (.str r) =>
      match jGetOpt j "sub_connections" with
      | none => some ⟨n, r, none⟩
      | some (.arr subs) => (subs.mapM decodeSub).map fun l => ⟨n, r, some l⟩
      | some _ => none
  | _, _ => none

/-- Decoder of the `center_node` object. -/
def decodeCenter (j : Json) : Option CenterNode :=
  match jGetOpt j "name", jGetOpt j "mission", jGetOpt j "positive_news",
      jGetOpt j "red_flags" with
  | some (.str n), some (.str m), some (.str p), some (.str r) => some ⟨n, m, p, r⟩
  | _, _, _, _ => none

/-- Modelled from the spec: "either a fully-populated CenterResult or an
error".  A stored `graph_data` dict is a complete CenterResult exactly when
this decoder succeeds on it (every field the render pass dereferences is
present with the right shape). -/
def decode_center_result (j : Json) : Option CenterResult :=
  match jGetOpt j "center_node", jGetOpt j "connections" with
  | some c, some (.arr conns) =>
      match decodeCenter c, conns.mapM decodeConn with
      | some cn, some cs => some ⟨cn, cs⟩
      | _, _ => none
  | _, _ => none

/-- A node handed to the agraph widget (the fields built at lines 416-478). -/
structure GNode where
  id : String
  label : String
  size : Nat
  color : String
  shape : String
  title : Option String
deriving DecidableEq

/-- An edge handed to the agraph widget. -/
structure GEdge where
  source : String
  target : String
  color : String
  width : Nat
  dashes : Bool
deriving DecidableEq

/-- Lines 412-425 of `src/app.py`: the center node (layer 0). -/
def mkCenterNode (mode : Mode) (center : CenterNode) : GNode :=
  { id := center.name
    label := center.name
    size := 45
    color := if mode = .companyDiscovery then "#FF4B4B" else "#B19CD9"
    shape := if mode = .companyDiscovery then "dot" else "square"
    title := none }

/-- Lines 428-446 of `src/app.py`: a layer-1 node. -/
def mkL1Node (mode : Mode) (item : ConnectionEntity) : GNode :=
  { id := item.name
    label := item.name
    size := 30
    color := if mode = .roleSearch then "#FF4B4B" else "#00C0F2"
    shape := if mode = .roleSearch then "diamond" else "dot"
    title := some item.reason }

/-- Lines 455-478 of `src/app.py`: a layer-2 node. -/
def mkL2Node (mode : Mode) (itemName : String) (sub : SubConn) : GNode :=
  { id := sub.name
    label := sub.name
    size := 20
    color := if mode = .roleSearch then "#00C0F2" else "#1DB954"
    shape := if mode = .roleSearch then "star" else "dot"
    title := some (if mode = .roleSearch then
        "Cert for " ++ itemName ++ ": " ++ sub.reason
      else "Connected to " ++ itemName) }

/-- Lines 448-453 of `src/app.py`: the unconditional center-to-connection
edge. -/
def mkCenterEdge (centerName itemName : String) : GEdge :=
  { source := centerName, target := itemName, color := "#808080", width := 2, dashes := false }

/-- Lines 480-486 of `src/app.py`: the connection-to-sub-connection edge. -/
def mkSubEdge (mode : Mode) (itemName subName : String) : GEdge :=
  { source := itemName, target := subName, color := "#404040", width := 1
    dashes := mode = .roleSearch }

/-- Lines 456-486 of `src/app.py`: the inner loop over `sub_connections`. -/
def processSubs (mode : Mode) (itemName : String) :
    List SubConn → List GNode → List GEdge → List String →
    List GNode × List GEdge × List String
  | [], nodes, edges, ids => (nodes, edges, ids)
  | sub :: rest, nodes, edges, ids =>
      let nodes2 := if sub.name ∈ ids then nodes else nodes ++ [mkL2Node mode itemName sub]
      let ids2 := if sub.name ∈ ids then ids else ids ++ [sub.name]
      processSubs mode itemName rest nodes2 (edges ++ [mkSubEdge mode itemName sub.name]) ids2

/-- Lines 427-486 of `src/app.py`: the loop over `connections`.  The center
edge is appended unconditionally after the (conditional) node insertion, then
the `sub_connections` list is walked when present. -/
def processConns (mode : Mode) (centerName : String) :
    List ConnectionEntity → List GNode → List GEdge → List String →
    List GNode × List GEdge × List String
  | [], nodes, edges, ids => (nodes, edges, ids)
  | item :: rest, nodes, edges, ids =>
      let nodes2 := if item.name ∈ ids then nodes else nodes ++ [mkL1Node mode item]
      let ids2 := if item.name ∈ ids then ids else ids ++ [item.name]
      let edges2 := edges ++ [mkCenterEdge centerName item.name]
      let step :=
        match item.sub_connections with
        | some subs => processSubs mode item.name subs nodes2 edges2 ids2
        | none => (nodes2, edges2, ids2)
      processConns mode centerName rest step.1 step.2.1 step.2.2

/-- Lines 400-486 of `src/app.py`: the whole graph build, starting from the
center node and the singleton `node_ids` set. -/
def build_graph (mode : Mode) (data : CenterResult) : List GNode × List GEdge :=
  let centerName := data.center_node.name
  let r := processConns mode centerName data.connections
    [mkCenterNode mode data.center_node] [] [centerName]
  (r.1, r.2.1)

/-- Sub-connection list of an entry, empty when absent. -/
def subList (item : ConnectionEntity) : List SubConn :=
  item.sub_connections.getD []

/-- All entity names of a result, in traversal order: center first, then for
each connection its name followed by its sub-connection names. -/
def allNames (data : CenterResult) : List String :=
  data.center_node.name ::
    data.connections.flatMap fun item => item.name :: (subList item).map SubConn.name

/-- Append an element to a first-occurrence-wins accumulator if not present. -/
def insertIfNew (x : String) (acc : List String) : List String :=
  if x ∈ acc then acc else acc ++ [x]

/-- First-occurrence-wins deduplication, folded over an accumulator. -/
def firstDedupAux (l : List String) (acc : List String) : List String :=
  l.foldl (fun a x => insertIfNew x a) acc

/-- First-occurrence-wins deduplication of a name list (the specification
reading of the `node_ids` set discipline). -/
def firstDedup (l : List String) : List String :=
  firstDedupAux l []

/-- The edge list the loops emit: one center edge per connection in order,
followed by one edge per sub-connection. -/
def expectedEdges (mode : Mode) (centerName : String)
    (conns : List ConnectionEntity) : List GEdge :=
  conns.flatMap fun item =>
    mkCenterEdge centerName item.name ::
      (subList item).map fun sub => mkSubEdge mode item.name sub.name

/-- Concrete input for the dangling-edge witness: the Anthropic scenario with
a cross-layer name collision. -/
def w3data : CenterResult :=
  ⟨⟨"C", "m", "p", "r"⟩,
   [⟨"Anthropic", "r1", none⟩, ⟨"B", "r2", some [⟨"Anthropic", "r3"⟩]⟩]⟩

/-- Concrete input refuting the no-self-edge reading: a connection that
carries the same name as the center entity. -/
def c9ex : CenterResult :=
  ⟨⟨"X", "m", "p", "r"⟩, [⟨"X", "because", none⟩]⟩

/-- Concrete input for the self-edge-freedom witness. -/
def w9data : CenterResult :=
  ⟨⟨"C", "m", "p", "r"⟩, [⟨"A", "r1", some [⟨"S", "r2"⟩]⟩]⟩

/-- Concrete raw fetch result for the C1 witness. -/
def wjC1raw : Json := .obj [("center_node", .obj [("name", .str "OpenAI")])]

/-- The raw result with the `mode` key appended by the handler. -/
def wj1C1 : Json :=
  .obj [("center_node", .obj [("name", .str "OpenAI")]), ("mode", .str "Company Discovery")]

/-- Concrete initial state for the C1 witness. -/
def wsC1 : AppState := ⟨.companyDiscovery, "openai", "PM", none, [], 0, 0⟩

/-- Concrete Role Search state for the C4 counterexample. -/
def c4s0 : AppState := ⟨.roleSearch, "OpenAI", "PM", none, [], 0, 0⟩

/-- A well-formed fetch result whose canonical center name is
"Product Manager". -/
def c4json : Json :=
  .obj [("center_node", .obj [("name", .str "Product Manager")]), ("connections", .arr [])]

/-- Concrete Company Discovery state for the C4 witness. -/
def c4ws : AppState := ⟨.companyDiscovery, "openai", "PM", none, ["Anthropic"], 0, 0⟩

/-- Default filter selections, used by several concrete scenarios. -/
def wFil : Filters := ⟨"Any", "Any", "Any", "Any"⟩

/-- Concrete state for the C6 witness (nonzero counters, stored result). -/
def wsC6 : AppState := ⟨.companyDiscovery, "OpenAI", "PM", some wj1C1, ["OpenAI"], 7, 2⟩

/-- A stored Role Search result, displayed when the C8 scenario starts. -/
def c8gd : Json :=
  .obj [("mode", .str "Role Search"), ("center_node", .obj [("name", .str "Project Manager")])]

/-- Concrete Role Search state for the C8 counterexample. -/
def c8s0 : AppState := ⟨.roleSearch, "OpenAI", "Project Manager", some c8gd, [], 0, 0⟩

/-- Concrete Company Discovery state for the C8 witness. -/
def wsC8b : AppState := ⟨.companyDiscovery, "OpenAI", "PM", some c8gd, ["OpenAI"], 0, 0⟩

/-- Concrete Company Discovery state for the C5 failing input. -/
def c5s0 : AppState := ⟨.companyDiscovery, "X", "PM", none, [], 0, 0⟩

/-- What the handler stores for the C5 failing input: the parsed dict with
the `mode` key added, lacking every CenterResult field. -/
def c5stored : Json := .obj [("a", .num "1"), ("mode", .str "Company Discovery")]

/-- Response text for the C7 counterexample: valid JSON in fences, followed
by prose. -/
def c7prose : String := "\x60\x60\x60json\n\x7b\"a\": 1\x7d\n\x60\x60\x60\nThanks!"

theorem lookupField_setField_same (fs : List (String × Json)) (k : String) (v : Json) :
    lookupField (setField fs k v) k = some v := by
  induction fs with
  | nil => simp [setField, lookupField]
  | cons hd tl ih =>
      obtain ⟨k0, v0⟩ := hd
      by_cases h : k0 = k
      · simp [setField, lookupField, h]
      · simp [setField, lookupField, h, ih]

theorem lookupField_setField_other (fs : List (String × Json)) (k k2 : String) (v : Json)
    (h : k2 ≠ k) : lookupField (setField fs k v) k2 = lookupField fs k2 := by
  have hk : ¬ k = k2 := fun hh => h hh.symm
  induction fs with
  | nil => simp [setField, lookupField, hk]
  | cons hd tl ih =>
      obtain ⟨k0, v0⟩ := hd
      by_cases h0 : k0 = k
      · subst h0
        simp [setField, lookupField, hk]
      · simp [setField, lookupField, h0, ih]

theorem jGetOpt_jSetKey_same (j j1 : Json) (k : String) (v : Json)
    (h : jSetKey j k v = some j1) : jGetOpt j1 k = some v := by
  cases j with
  | obj fs =>
      simp only [jSetKey, Option.some.injEq] at h
      subst h
      simpa [jGetOpt] using lookupField_setField_same fs k v
  | null => simp [jSetKey] at h
  | bool b => simp [jSetKey] at h
  | num x => simp [jSetKey] at h
  | str x => simp [jSetKey] at h
  | arr x => simp [jSetKey] at h

theorem jGetOpt_jSetKey_other (j j1 : Json) (k k2 : String) (v : Json)
    (h : jSetKey j k v = some j1) (hne : k2 ≠ k) : jGetOpt j1 k2 = jGetOpt j k2 := by
  cases j with
  | obj fs =>
      simp only [jSetKey, Option.some.injEq] at h
      subst h
      simpa [jGetOpt] using lookupField_setField_other fs k k2 v hne
  | null => simp [jSetKey] at h
  | bool b => simp [jSetKey] at h
  | num x => simp [jSetKey] at h
  | str x => simp [jSetKey] at h
  | arr x => simp [jSetKey] at h

theorem mem_insertIfNew (x y : String) (acc : List String) :
    x ∈ insertIfNew y acc ↔ x ∈ acc ∨ x = y := by
  by_cases h : y ∈ acc
  · simp only [insertIfNew, if_pos h]
    constructor
    · exact Or.inl
    · rintro (hx | rfl)
      · exact hx
      · exact h
  · simp [insertIfNew, if_neg h]

theorem firstDedupAux_cons (x : String) (l acc : List String) :
    firstDedupAux (x :: l) acc = firstDedupAux l (insertIfNew x acc) := rfl

theorem firstDedupAux_append (l1 l2 acc : List String) :
    firstDedupAux (l1 ++ l2) acc = firstDedupAux l2 (firstDedupAux l1 acc) :=
  List.foldl_append _ _ _ _

theorem mem_firstDedupAux (x : String) (l acc : List String) :
    x ∈ firstDedupAux l acc ↔ x ∈ acc ∨ x ∈ l := by
  induction l generalizing acc with
  | nil => simp [firstDedupAux]
  | cons y tl ih =>
      rw [firstDedupAux_cons, ih, mem_insertIfNew]
      constructor
      · rintro ((hx | rfl) | hx)
        · exact Or.inl hx
        · exact Or.inr (List.mem_cons_self _ _)
        · exact Or.inr (List.mem_cons_of_mem _ hx)
      · rintro (hx | hx)
        · exact Or.inl (Or.inl hx)
        · rcases List.mem_cons.mp hx with rfl | hx
          · exact Or.inl (Or.inr rfl)
          · exact Or.inr hx

theorem nodup_insertIfNew (y : String) (acc : List String) (h : acc.Nodup) :
    (insertIfNew y acc).Nodup := by
  by_cases hy : y ∈ acc
  · simpa [insertIfNew, hy] using h
  · simp only [insertIfNew, if_neg hy]
    exact List.nodup_append.mpr ⟨h, List.nodup_singleton y, by simpa using hy⟩

theorem nodup_firstDedupAux (l acc : List String) (h : acc.Nodup) :
    (firstDedupAux l acc).Nodup := by
  induction l generalizing acc with
  | nil => exact h
  | cons y tl ih => exact firstDedupAux_cons y tl acc ▸ ih _ (nodup_insertIfNew y acc h)

theorem toFinset_firstDedupAux (l acc : List String) :
    (firstDedupAux l acc).toFinset = acc.toFinset ∪ l.toFinset := by
  ext x
  simp [mem_firstDedupAux]

theorem length_firstDedup (l : List String) :
    (firstDedup l).length = l.toFinset.card := by
  have hnd : (firstDedup l).Nodup := nodup_firstDedupAux l [] (List.nodup_nil)
  have hfs : (firstDedup l).toFinset = l.toFinset := by
    simpa [firstDedup] using toFinset_firstDedupAux l []
  calc (firstDedup l).length = (firstDedup l).toFinset.card :=
        (List.toFinset_card_of_nodup hnd).symm
    _ = l.toFinset.card := by rw [hfs]

theorem expectedEdges_cons (mode : Mode) (centerName : String) (item : ConnectionEntity)
    (rest : List ConnectionEntity) :
    expectedEdges mode centerName (item :: rest) =
      (mkCenterEdge centerName item.name ::
        (subList item).map fun sub => mkSubEdge mode item.name sub.name) ++
      expectedEdges mode centerName rest := by
  simp [expectedEdges]

theorem processSubs_spec (mode : Mode) (itemName : String) (subs : List SubConn) :
    ∀ (nodes : List GNode) (edges : List GEdge) (ids : List String),
    nodes.map GNode.id = ids →
    (processSubs mode itemName subs nodes edges ids).1.map GNode.id =
        (processSubs mode itemName subs nodes edges ids).2.2 ∧
    (processSubs mode itemName subs nodes edges ids).2.2 =
        firstDedupAux (subs.map SubConn.name) ids ∧
    (processSubs mode itemName subs nodes edges ids).2.1 =
        edges ++ subs.map fun sub => mkSubEdge mode itemName sub.name := by
  induction subs with
  | nil =>
      intro nodes edges ids h
      exact ⟨h, rfl, by simp [processSubs]⟩
  | cons sub rest ih =>
      intro nodes edges ids h
      simp only [processSubs]
      by_cases hmem : sub.name ∈ ids
      · simp only [if_pos hmem]
        have hstep := ih nodes (edges ++ [mkSubEdge mode itemName sub.name]) ids h
        refine ⟨hstep.1, ?_, ?_⟩
        · rw [hstep.2.1, List.map_cons, firstDedupAux_cons]
          congr 1
          simp [insertIfNew, hmem]
        · rw [hstep.2.2]
          simp
      · simp only [if_neg hmem]
        have h2 : (nodes ++ [mkL2Node mode itemName sub]).map GNode.id = ids ++ [sub.name] := by
          simp [h, mkL2Node]
        have hstep := ih (nodes ++ [mkL2Node mode itemName sub])
          (edges ++ [mkSubEdge mode itemName sub.name]) (ids ++ [sub.name]) h2
        refine ⟨hstep.1, ?_, ?_⟩
        · rw [hstep.2.1, List.map_cons, firstDedupAux_cons]
          congr 1
          simp [insertIfNew, hmem]
        · rw [hstep.2.2]
          simp

theorem processConns_spec (mode : Mode) (centerName : String)
    (conns : List ConnectionEntity) :
    ∀ (nodes : List GNode) (edges : List GEdge) (ids : List String),
    nodes.map GNode.id = ids →
    (processConns mode centerName conns nodes edges ids).1.map GNode.id =
        (processConns mode centerName conns nodes edges ids).2.2 ∧
    (processConns mode centerName conns nodes edges ids).2.2 =
        firstDedupAux
          (conns.flatMap fun item => item.name :: (subList item).map SubConn.name) ids ∧
    (processConns mode centerName conns nodes edges ids).2.1 =
        edges ++ expectedEdges mode centerName conns := by
  induction conns with
  | nil =>
      intro nodes edges ids h
      exact ⟨h, rfl, by simp [processConns, expectedEdges]⟩
  | cons item rest ih =>
      intro nodes edges ids h
      have h2 : (if item.name ∈ ids then nodes else nodes ++ [mkL1Node mode item]).map GNode.id =
          (if item.name ∈ ids then ids else ids ++ [item.name]) := by
        by_cases hmem : item.name ∈ ids <;> simp [hmem, h, mkL1Node]
      have hins : (if item.name ∈ ids then ids else ids ++ [item.name]) =
          insertIfNew item.name ids := rfl
      cases hsub : item.sub_connections with
      | none =>
          simp only [processConns, hsub]
          generalize hN : (if item.name ∈ ids then nodes else nodes ++ [mkL1Node mode item]) =
            nodes2 at h2 ⊢
          generalize hI : (if item.name ∈ ids then ids else ids ++ [item.name]) =
            ids2 at h2 hins ⊢
          have hstep := ih nodes2 (edges ++ [mkCenterEdge centerName item.name]) ids2 h2
          refine ⟨hstep.1, ?_, ?_⟩
          · rw [hstep.2.1, hins, List.flatMap_cons, firstDedupAux_append, firstDedupAux_cons]
            simp [subList, hsub, firstDedupAux]
          · rw [hstep.2.2, expectedEdges_cons]
            simp [subList, hsub]
      | some subs =>
          simp only [processConns, hsub]
          generalize hN : (if item.name ∈ ids then nodes else nodes ++ [mkL1Node mode item]) =
            nodes2 at h2 ⊢
          generalize hI : (if item.name ∈ ids then ids else ids ++ [item.name]) =
            ids2 at h2 hins ⊢
          have hsubs := processSubs_spec mode item.name subs nodes2
            (edges ++ [mkCenterEdge centerName item.name]) ids2 h2
          have hstep := ih
            (processSubs mode item.name subs nodes2
              (edges ++ [mkCenterEdge centerName item.name]) ids2).1
            (processSubs mode item.name subs nodes2
              (edges ++ [mkCenterEdge centerName item.name]) ids2).2.1
            (processSubs mode item.name subs nodes2
              (edges ++ [mkCenterEdge centerName item.name]) ids2).2.2 hsubs.1
          refine ⟨hstep.1, ?_, ?_⟩
          · rw [hstep.2.1, hsubs.2.1, hins, List.flatMap_cons, firstDedupAux_append,
              firstDedupAux_cons]
            congr 1
            simp [subList, hsub]
          · rw [hstep.2.2, hsubs.2.2, expectedEdges_cons]
            simp [subList, hsub]

theorem build_graph_spec (mode : Mode) (data : CenterResult) :
    (build_graph mode data).1.map GNode.id =
      firstDedupAux
        (data.connections.flatMap fun item => item.name :: (subList item).map SubConn.name)
        [data.center_node.name] ∧
    (build_graph mode data).2 = expectedEdges mode data.center_node.name data.connections := by
  have h0 : ([mkCenterNode mode data.center_node].map GNode.id) = [data.center_node.name] := by
    simp [mkCenterNode]
  have hc := processConns_spec mode data.center_node.name data.connections
    [mkCenterNode mode data.center_node] [] [data.center_node.name] h0
  refine ⟨?_, ?_⟩
  · rw [show (build_graph mode data).1 =
        (processConns mode data.center_node.name data.connections
          [mkCenterNode mode data.center_node] [] [data.center_node.name]).1 from rfl,
      hc.1, hc.2.1]
  · rw [show (build_graph mode data).2 =
        (processConns mode data.center_node.name data.connections
          [mkCenterNode mode data.center_node] [] [data.center_node.name]).2.1 from rfl,
      hc.2.2]
    simp

theorem firstDedup_allNames (data : CenterResult) :
    firstDedup (allNames data) =
      firstDedupAux
        (data.connections.flatMap fun item => item.name :: (subList item).map SubConn.name)
        [data.center_node.name] := rfl

theorem expectedEdges_length (mode : Mode) (centerName : String)
    (conns : List ConnectionEntity) :
    (expectedEdges mode centerName conns).length =
      (conns.map fun item => 1 + (subList item).length).sum := by
  induction conns with
  | nil => simp [expectedEdges]
  | cons item rest ih =>
      simp [expectedEdges_cons, ih]
      omega

/-- C2: for every CenterResult, the assembled node list has exactly one node
per distinct name across the center, the connections and all
sub-connections, with the first occurrence winning, while the edge list still
carries one edge per relationship (one per connection plus one per
sub-connection, in traversal order). -/
theorem build_graph_node_dedup_count (mode : Mode) (data : CenterResult) :
    (build_graph mode data).1.map GNode.id = firstDedup (allNames data) ∧
    (build_graph mode data).1.length = (allNames data).toFinset.card ∧
    (build_graph mode data).2 = expectedEdges mode data.center_node.name data.connections ∧
    (build_graph mode data).2.length =
      (data.connections.map fun item => 1 + (subList item).length).sum := by
  have hbs := build_graph_spec mode data
  have hnames : (build_graph mode data).1.map GNode.id = firstDedup (allNames data) := by
    rw [hbs.1, firstDedup_allNames]
  refine ⟨hnames, ?_, hbs.2, ?_⟩
  · calc (build_graph mode data).1.length
        = ((build_graph mode data).1.map GNode.id).length := (List.length_map _ _).symm
      _ = (firstDedup (allNames data)).length := by rw [hnames]
      _ = (allNames data).toFinset.card := length_firstDedup _
  · rw [hbs.2, expectedEdges_length]

/-- C3: every edge produced by the graph build has its source and target
among the produced node identifiers, for every CenterResult input. -/
theorem build_graph_no_dangling_edges (mode : Mode) (data : CenterResult) (e : GEdge)
    (he : e ∈ (build_graph mode data).2) :
    e.source ∈ (build_graph mode data).1.map GNode.id ∧
    e.target ∈ (build_graph mode data).1.map GNode.id := by
  have hbs := build_graph_spec mode data
  rw [hbs.2] at he
  rw [hbs.1]
  rcases List.mem_flatMap.mp he with ⟨item, hitem, hmem⟩
  rcases List.mem_cons.mp hmem with rfl | hsubmem
  · constructor
    · rw [mem_firstDedupAux]
      exact Or.inl (by simp [mkCenterEdge])
    · rw [mem_firstDedupAux]
      refine Or.inr (List.mem_flatMap.mpr ⟨item, hitem, ?_⟩)
      simp [mkCenterEdge]
  · rcases List.mem_map.mp hsubmem with ⟨sub, hs, rfl⟩
    constructor
    · rw [mem_firstDedupAux]
      refine Or.inr (List.mem_flatMap.mpr ⟨item, hitem, ?_⟩)
      simp [mkSubEdge]
    · rw [mem_firstDedupAux]
      refine Or.inr (List.mem_flatMap.mpr ⟨item, hitem, ?_⟩)
      refine List.mem_cons_of_mem _ ?_
      simpa [mkSubEdge] using List.mem_map_of_mem SubConn.name hs

theorem build_graph_no_dangling_edges_witness :
    mkCenterEdge "C" "Anthropic" ∈ (build_graph .companyDiscovery w3data).2 ∧
    (mkCenterEdge "C" "Anthropic").source ∈
      (build_graph .companyDiscovery w3data).1.map GNode.id ∧
    (mkCenterEdge "C" "Anthropic").target ∈
      (build_graph .companyDiscovery w3data).1.map GNode.id :=
  ⟨by decide,
   (build_graph_no_dangling_edges .companyDiscovery w3data _ (by decide)).1,
   (build_graph_no_dangling_edges .companyDiscovery w3data _ (by decide)).2⟩

/-- C9 counterexample: with a connection named like the center, the build
emits a center-to-center self-edge; the defensive guard the specification
requires does not exist in the code. -/
theorem center_named_connection_self_edge :
    (build_graph .companyDiscovery c9ex).2.map (fun e => (e.source, e.target)) =
      [("X", "X")] ∧
    ¬ (∀ e ∈ (build_graph .companyDiscovery c9ex).2, e.source ≠ e.target) := by
  refine ⟨rfl, by decide⟩

/-- C9 amended: the center-to-connection edge is appended unconditionally, so
the graph is self-edge-free exactly under the name-distinctness hypotheses:
no connection may carry the center name and no sub-connection may carry its
parent connection name. -/
theorem build_graph_no_self_edges_of_distinct (mode : Mode) (data : CenterResult)
    (h1 : ∀ item ∈ data.connections, item.name ≠ data.center_node.name)
    (h2 : ∀ item ∈ data.connections, ∀ sub ∈ subList item, sub.name ≠ item.name) :
    ∀ e ∈ (build_graph mode data).2, e.source ≠ e.target := by
  intro e he
  rw [(build_graph_spec mode data).2] at he
  rcases List.mem_flatMap.mp he with ⟨item, hitem, hmem⟩
  rcases List.mem_cons.mp hmem with rfl | hsubmem
  · simpa [mkCenterEdge] using (h1 item hitem).symm
  · rcases List.mem_map.mp hsubmem with ⟨sub, hs, rfl⟩
    simpa [mkSubEdge] using (h2 item hitem sub hs).symm

theorem build_graph_no_self_edges_of_distinct_witness :
    (∀ item ∈ w9data.connections, item.name ≠ w9data.center_node.name) ∧
    (∀ item ∈ w9data.connections, ∀ sub ∈ subList item, sub.name ≠ item.name) ∧
    ∀ e ∈ (build_graph .roleSearch w9data).2, e.source ≠ e.target :=
  ⟨by decide, by decide,
   build_graph_no_self_edges_of_distinct .roleSearch w9data (by decide) (by decide)⟩

theorem modeStr_inj (a b : Mode) (h : modeStr a = modeStr b) : a = b := by
  cases a <;> cases b <;> first | rfl | (exact absurd h (by decide))

theorem jFieldEqStr_eq_true (g : Json) (k v : String) :
    jFieldEqStr g k v = true ↔ jGetOpt g k = some (.str v) := by
  unfold jFieldEqStr
  cases h : jGetOpt g k with
  | none => simp
  | some j0 => cases j0 <;> simp

theorem centerNameEqQuery_eq_true (g : Json) (q : String) :
    centerNameEqQuery g q = true ↔
      jGetOpt (jGetD g "center_node" (.obj [])) "name" = some (.str q) := by
  unfold centerNameEqQuery
  cases h : jGetOpt (jGetD g "center_node" (.obj [])) "name" with
  | none => simp
  | some j0 => cases j0 <;> simp

theorem should_fetch_after_store (j j1 : Json) (m : Mode) (nm : String)
    (hset : jSetKey j "mode" (.str (modeStr m)) = some j1)
    (hname : ((jGetOpt j1 "center_node").bind fun c => jGetOpt c "name") = some (.str nm)) :
    should_fetch (some j1) m nm = false := by
  have hmode : jGetOpt j1 "mode" = some (.str (modeStr m)) :=
    jGetOpt_jSetKey_same j j1 "mode" (.str (modeStr m)) hset
  rcases Option.bind_eq_some.mp hname with ⟨c, hc, hcn⟩
  simp [should_fetch, jFieldEqStr, hmode, centerNameEqQuery, jGetD, hc, hcn]

/-- C1: on every render pass the fetch decision equals the specified
disjunction (empty last result, or stored mode differs, or stored center name
differs from the active query); after a successful fetch the decision is
false for the resulting state, and it flips to true as soon as the active
mode or the active query changes. -/
theorem should_fetch_contract :
    (∀ (gd : Option Json) (m : Mode) (q : String),
      should_fetch gd m q = shouldFetchSpec gd m q) ∧
    (∀ (s : AppState) (j j1 : Json) (nm : String),
      jTruthy j = true →
      jSetKey j "mode" (.str (modeStr s.mode)) = some j1 →
      ((jGetOpt j1 "center_node").bind fun c => jGetOpt c "name") = some (.str nm) →
      should_fetch (handle_fetch_data s s.mode (active_query_of s) (.ok j)).1.graph_data
        s.mode
        (active_query_of (handle_fetch_data s s.mode (active_query_of s) (.ok j)).1) =
        false) ∧
    (∀ (g : Json) (m m2 : Mode) (q q2 : String),
      should_fetch (some g) m q = false →
      (m2 ≠ m → should_fetch (some g) m2 q = true) ∧
      (q2 ≠ q → should_fetch (some g) m q2 = true)) := by
  refine ⟨?_, ?_, ?_⟩
  · intro gd m q
    cases gd with
    | none => rfl
    | some g =>
        cases h1 : jFieldEqStr g "mode" (modeStr m) <;>
          cases h2 : centerNameEqQuery g q <;>
            simp [should_fetch, shouldFetchSpec, h1, h2]
  · intro s j j1 nm ht hset hname
    obtain ⟨m0, cst, rst, gd0, hist, tu, sc⟩ := s
    have hsf := should_fetch_after_store j j1 m0 nm hset hname
    cases m0 with
    | companyDiscovery =>
        by_cases hq : cst = nm
        · subst hq
          by_cases hh : cst ∈ hist <;>
            simp [handle_fetch_data, active_query_of, ht, hset, hname, hh, hsf]
        · by_cases hh : nm ∈ hist <;>
            simp [handle_fetch_data, active_query_of, ht, hset, hname, hh, hq, hsf]
    | roleSearch =>
        by_cases hq : rst = nm
        · subst hq
          simp [handle_fetch_data, active_query_of, ht, hset, hname, hsf]
        · simp [handle_fetch_data, active_query_of, ht, hset, hname, hq, hsf]
  · intro g m m2 q q2 hfalse
    have hA : jFieldEqStr g "mode" (modeStr m) = true := by
      by_contra hA
      rw [Bool.not_eq_true] at hA
      simp [should_fetch, hA] at hfalse
    have hB : centerNameEqQuery g q = true := by
      by_contra hB
      rw [Bool.not_eq_true] at hB
      simp [should_fetch, hA, hB] at hfalse
    have hl := (jFieldEqStr_eq_true g "mode" (modeStr m)).mp hA
    have hcl := (centerNameEqQuery_eq_true g q).mp hB
    constructor
    · intro hm2
      have hf2 : jFieldEqStr g "mode" (modeStr m2) = false := by
        simp only [jFieldEqStr, hl]
        simp only [decide_eq_false_iff_not]
        exact fun hh => hm2 (modeStr_inj m m2 hh).symm
      simp [should_fetch, hf2]
    · intro hq2
      have hc2 : centerNameEqQuery g q2 = false := by
        simp only [centerNameEqQuery, hcl]
        simp only [decide_eq_false_iff_not]
        exact fun hh => hq2 (hh.symm)
      simp [should_fetch, hA, hc2]

theorem should_fetch_contract_witness :
    should_fetch (some wj1C1) .roleSearch "OpenAI" = true ∧
    should_fetch (some wj1C1) .companyDiscovery "Claude" = true ∧
    should_fetch
      (handle_fetch_data wsC1 wsC1.mode (active_query_of wsC1) (.ok wjC1raw)).1.graph_data
      wsC1.mode
      (active_query_of
        (handle_fetch_data wsC1 wsC1.mode (active_query_of wsC1) (.ok wjC1raw)).1) = false ∧
    should_fetch none .companyDiscovery "x" = shouldFetchSpec none .companyDiscovery "x" :=
  ⟨(should_fetch_contract.2.2 wj1C1 .companyDiscovery .roleSearch "OpenAI" "q" rfl).1
      (by decide),
   (should_fetch_contract.2.2 wj1C1 .companyDiscovery .companyDiscovery "OpenAI" "Claude"
      rfl).2 (by decide),
   should_fetch_contract.2.1 wsC1 wjC1raw wj1C1 "OpenAI" rfl rfl rfl,
   should_fetch_contract.1 none .companyDiscovery "x"⟩

theorem nodup_append_singleton_of (l : List String) (a : String)
    (h : l.Nodup) (ha : a ∉ l) : (l ++ [a]).Nodup := by
  rw [List.nodup_append]
  refine ⟨h, List.nodup_singleton a, ?_⟩
  intro x hx hxa
  rw [List.mem_singleton] at hxa
  subst hxa
  exact ha hx

/-- C4 counterexample: a successful Role Search fetch stores the result and
rewrites the search term, yet the canonical name is not appended to the
history, which stays empty. -/
theorem fetch_success_role_search_history_not_appended :
    (handle_fetch_data c4s0 .roleSearch "PM" (.ok c4json)).2 = false ∧
    (handle_fetch_data c4s0 .roleSearch "PM" (.ok c4json)).1.graph_data =
      some (.obj [("center_node", .obj [("name", .str "Product Manager")]),
        ("connections", .arr []), ("mode", .str "Role Search")]) ∧
    (handle_fetch_data c4s0 .roleSearch "PM" (.ok c4json)).1.role_search_term =
      "Product Manager" ∧
    (handle_fetch_data c4s0 .roleSearch "PM" (.ok c4json)).1.history = [] :=
  ⟨rfl, rfl, rfl, rfl⟩

/-- C4 amended: on a successful fetch the handler stores the result (with the
mode recorded) and rewrites the mode-specific search term to the canonical
name when it differs; only in Company Discovery mode is the canonical name
appended to the history when absent (so the history stays duplicate-free),
while Role Search leaves the history untouched. -/
theorem fetch_success_state_update (s : AppState) (m : Mode) (q : String)
    (j j1 : Json) (nm : String)
    (ht : jTruthy j = true)
    (hset : jSetKey j "mode" (.str (modeStr m)) = some j1)
    (hname : ((jGetOpt j1 "center_node").bind fun c => jGetOpt c "name") = some (.str nm)) :
    (handle_fetch_data s m q (.ok j)).2 = false ∧
    (handle_fetch_data s m q (.ok j)).1.graph_data = some j1 ∧
    (handle_fetch_data s m q (.ok j)).1.mode = s.mode ∧
    (m = .companyDiscovery →
      (handle_fetch_data s m q (.ok j)).1.history =
        (if nm ∈ s.history then s.history else s.history ++ [nm]) ∧
      (s.history.Nodup → (handle_fetch_data s m q (.ok j)).1.history.Nodup) ∧
      (handle_fetch_data s m q (.ok j)).1.company_search_term =
        (if q = nm then s.company_search_term else nm)) ∧
    (m = .roleSearch →
      (handle_fetch_data s m q (.ok j)).1.history = s.history ∧
      (handle_fetch_data s m q (.ok j)).1.role_search_term =
        (if q = nm then s.role_search_term else nm)) := by
  cases m with
  | companyDiscovery =>
      by_cases hq : q = nm
      · subst hq
        by_cases hh : q ∈ s.history
        · simp [handle_fetch_data, ht, hset, hname, hh]
        · simp [handle_fetch_data, ht, hset, hname, hh]
          intro hnd
          exact nodup_append_singleton_of _ _ hnd hh
      · by_cases hh : nm ∈ s.history
        · simp [handle_fetch_data, ht, hset, hname, hh, hq]
        · simp [handle_fetch_data, ht, hset, hname, hh, hq]
          intro hnd
          exact nodup_append_singleton_of _ _ hnd hh
  | roleSearch =>
      by_cases hq : q = nm
      · subst hq
        simp [handle_fetch_data, ht, hset, hname]
      · simp [handle_fetch_data, ht, hset, hname, hq]

theorem fetch_success_state_update_witness :
    jTruthy c4json = true ∧
    (handle_fetch_data c4ws .companyDiscovery "openai" (.ok c4json)).1.history =
      (if "Product Manager" ∈ c4ws.history then c4ws.history
       else c4ws.history ++ ["Product Manager"]) ∧
    (handle_fetch_data c4ws .companyDiscovery "openai" (.ok c4json)).1.company_search_term =
      (if "openai" = "Product Manager" then c4ws.company_search_term
       else "Product Manager") :=
  ⟨rfl,
   ((fetch_success_state_update c4ws .companyDiscovery "openai" c4json
      (.obj [("center_node", .obj [("name", .str "Product Manager")]),
        ("connections", .arr []), ("mode", .str "Company Discovery")])
      "Product Manager" rfl rfl rfl).2.2.2.1 rfl).1,
   ((fetch_success_state_update c4ws .companyDiscovery "openai" c4json
      (.obj [("center_node", .obj [("name", .str "Product Manager")]),
        ("connections", .arr []), ("mode", .str "Company Discovery")])
      "Product Manager" rfl rfl rfl).2.2.2.1 rfl).2.2⟩

/-- C6: with the credential absent (or empty) the gateway returns the
credential error without consulting the model outcome, the counters are
returned unchanged, and the whole fetch pass leaves the session state exactly
as it was. -/
theorem credential_missing_fails_fast (apiKey : Option String)
    (hk : initialize_gemini apiKey = false) :
    (∀ (m : Mode) (q : String) (f : Filters) (o : ModelOutcome) (tu sc : ℚ),
      get_gemini_response apiKey m q f o tu sc = (.credential_missing, tu, sc)) ∧
    (∀ (s : AppState) (m : Mode) (q : String),
      handle_fetch_data s m q .credential_missing = (s, false)) ∧
    (∀ (f : Filters) (s : AppState) (o : ModelOutcome),
      run_fetch_pass apiKey f s o = (s, false)) := by
  refine ⟨?_, ?_, ?_⟩
  · intro m q f o tu sc
    simp [get_gemini_response, hk]
  · intro s m q
    rfl
  · intro f s o
    simp [run_fetch_pass, get_gemini_response, hk]
    rfl

theorem credential_missing_fails_fast_witness :
    initialize_gemini none = false ∧
    get_gemini_response none .companyDiscovery "OpenAI" wFil (.text "ignored") 3 5 =
      (.credential_missing, 3, 5) ∧
    run_fetch_pass none wFil wsC6 (.text "ignored") = (wsC6, false) :=
  ⟨rfl,
   (credential_missing_fails_fast none rfl).1 .companyDiscovery "OpenAI" wFil
     (.text "ignored") 3 5,
   (credential_missing_fails_fast none rfl).2.2 wFil wsC6 (.text "ignored")⟩

/-- C8 counterexample: in Role Search mode, clicking a non-center node leaves
the session state untouched — the query is not re-centered, the mode is not
switched, and the stored result is not cleared. -/
theorem node_click_role_search_noop :
    handle_node_click c8s0 .roleSearch "Project Manager" (some "Scrum Master") = c8s0 ∧
    c8s0.graph_data = some c8gd ∧
    active_query_of c8s0 = "Project Manager" ∧
    c8s0.role_search_term = "Project Manager" :=
  ⟨rfl, rfl, rfl, rfl⟩

/-- C8 amended: only in Company Discovery mode does clicking a truthy
non-center node re-center the exploration (search term set to the node name,
mode kept at Company Discovery, stored result cleared, which forces the fetch
decision on the next pass); in any other mode the handler does nothing. -/
theorem node_click_company_discovery_recenter (s : AppState) (center cn : String)
    (h1 : cn ≠ "") (h2 : cn ≠ center) :
    handle_node_click s .companyDiscovery center (some cn) =
      { s with mode := .companyDiscovery, company_search_term := cn, graph_data := none } ∧
    (∀ (m : Mode) (q : String),
      should_fetch (handle_node_click s .companyDiscovery center (some cn)).graph_data m q =
        true) ∧
    (∀ (s2 : AppState) (m : Mode), m ≠ .companyDiscovery →
      handle_node_click s2 m center (some cn) = s2) := by
  refine ⟨?_, ?_, ?_⟩
  · simp [handle_node_click, h1, h2]
  · intro m q
    simp [handle_node_click, h1, h2, should_fetch]
  · intro s2 m hm
    simp [handle_node_click, hm]

theorem node_click_company_discovery_recenter_witness :
    ("Anthropic" : String) ≠ "" ∧ ("Anthropic" : String) ≠ "OpenAI" ∧
    handle_node_click wsC8b .companyDiscovery "OpenAI" (some "Anthropic") =
      { wsC8b with
          mode := .companyDiscovery
          company_search_term := "Anthropic"
          graph_data := none } :=
  ⟨by decide, by decide,
   (node_click_company_discovery_recenter wsC8b "OpenAI" "Anthropic"
     (by decide) (by decide)).1⟩

/-- C5: evaluation of the code at the failing input.  The model returns valid
JSON that is not a CenterResult; `get_gemini_response` parses it without any
field validation, the handler stores it into `graph_data`, and only then does
reading `data["center_node"]["name"]` fail — so a partial, schema-invalid
result has replaced the previous `lastResult`. -/
theorem fetch_stores_unvalidated_json :
    (run_fetch_pass (some "key") wFil c5s0 (.text "\x7b\"a\": 1\x7d")).1.graph_data =
      some c5stored ∧
    (run_fetch_pass (some "key") wFil c5s0 (.text "\x7b\"a\": 1\x7d")).2 = true ∧
    decode_center_result c5stored = none ∧
    c5s0.graph_data = none :=
  ⟨rfl, rfl, rfl, rfl⟩

theorem build_user_prompt_length_pos (m : Mode) (q : String) (f : Filters) :
    0 < (build_user_prompt m q f).length := by
  have h1 : ("\x27" : String).length = 1 := rfl
  cases m <;> simp [build_user_prompt, String.length_append] <;> omega

/-- C10: when the credential is present and the model call returns text that
fails to parse after cleaning, the gateway reports the analysis error, but
the token and cost counters have already been advanced by the length/4
estimates of the prompt and the raw response (a strict increase, since the
prompt is never empty), while the stored result is left unchanged — counter
updates are not atomic with fetch success. -/
theorem token_counters_updated_before_parse (k : String) (hk : k ≠ "")
    (m : Mode) (q : String) (f : Filters) (t : String) (tu sc : ℚ)
    (hparse : json_loads (clean_response t) = none) :
    get_gemini_response (some k) m q f (.text t) tu sc =
      (.analysis_error,
       tu + (((build_user_prompt m q f).length : ℚ) / 4 + ((t.length : ℚ) / 4)),
       sc + ((((build_user_prompt m q f).length : ℚ) / 4 / 1000) * (1 / 10000) +
             (((t.length : ℚ) / 4 / 1000) * (2 / 10000)))) ∧
    tu < tu + (((build_user_prompt m q f).length : ℚ) / 4 + ((t.length : ℚ) / 4)) ∧
    (∀ (s : AppState) (m2 : Mode) (q2 : String),
      handle_fetch_data s m2 q2 .analysis_error = (s, false)) := by
  have hkey : initialize_gemini (some k) = true := by simp [initialize_gemini, hk]
  refine ⟨?_, ?_, ?_⟩
  · simp [get_gemini_response, hkey, hparse]
  · have hp := build_user_prompt_length_pos m q f
    have h1 : (0 : ℚ) < ((build_user_prompt m q f).length : ℚ) := by exact_mod_cast hp
    have h4 : (0 : ℚ) < ((build_user_prompt m q f).length : ℚ) / 4 := by positivity
    have h5 : (0 : ℚ) ≤ ((t.length : ℚ)) / 4 := by positivity
    linarith
  · intro s m2 q2
    rfl

theorem token_counters_updated_before_parse_witness :
    ("k" : String) ≠ "" ∧ json_loads (clean_response "oops") = none ∧
    get_gemini_response (some "k") .companyDiscovery "q" wFil (.text "oops") 0 0 =
      (.analysis_error,
       0 + (((build_user_prompt .companyDiscovery "q" wFil).length : ℚ) / 4 +
            ((("oops" : String).length : ℚ) / 4)),
       0 + ((((build_user_prompt .companyDiscovery "q" wFil).length : ℚ) / 4 / 1000) *
              (1 / 10000) +
            (((("oops" : String).length : ℚ) / 4 / 1000) * (2 / 10000)))) :=
  ⟨by decide, rfl,
   (token_counters_updated_before_parse "k" (by decide) .companyDiscovery "q" wFil
     "oops" 0 0 rfl).1⟩

theorem startsWithList_append_self (pat tail : List Char) :
    startsWithList pat (pat ++ tail) = true := by
  induction pat with
  | nil => rfl
  | cons p ps ih => simp [startsWithList, ih]

theorem pyReplaceFuel_fuel_ge (pat rep : List Char) :
    ∀ (f : Nat) (l : List Char), l.length ≤ f →
      pyReplaceFuel pat rep f l = pyReplaceFuel pat rep l.length l := by
  intro f
  induction f using Nat.strong_induction_on with
  | _ f ih =>
      cases f with
      | zero =>
          intro l hl
          have h0 : l = [] := List.length_eq_zero.mp (Nat.le_zero.mp hl)
          subst h0
          rfl
      | succ f2 =>
          intro l hl
          cases l with
          | nil => rfl
          | cons c rest =>
              have hrest : rest.length ≤ f2 := by
                simp [List.length_cons] at hl
                omega
              rw [List.length_cons]
              by_cases hc : (¬ pat.isEmpty = true) ∧ startsWithList pat (c :: rest) = true
              · rw [show pyReplaceFuel pat rep (f2 + 1) (c :: rest) =
                      rep ++ pyReplaceFuel pat rep f2 (List.drop (pat.length - 1) rest) from by
                    simp only [pyReplaceFuel]
                    rw [if_pos hc],
                  show pyReplaceFuel pat rep (rest.length + 1) (c :: rest) =
                      rep ++ pyReplaceFuel pat rep rest.length
                        (List.drop (pat.length - 1) rest) from by
                    simp only [pyReplaceFuel]
                    rw [if_pos hc]]
                have hd : (List.drop (pat.length - 1) rest).length ≤ rest.length := by
                  rw [List.length_drop]
                  omega
                rw [ih f2 (Nat.lt_succ_self f2) _ (le_trans hd hrest),
                  ih rest.length (Nat.lt_succ_of_le hrest) _ hd]
              · rw [show pyReplaceFuel pat rep (f2 + 1) (c :: rest) =
                      c :: pyReplaceFuel pat rep f2 rest from by
                    simp only [pyReplaceFuel]
                    rw [if_neg hc],
                  show pyReplaceFuel pat rep (rest.length + 1) (c :: rest) =
                      c :: pyReplaceFuel pat rep rest.length rest from by
                    simp only [pyReplaceFuel]
                    rw [if_neg hc]]
                rw [ih f2 (Nat.lt_succ_self f2) rest hrest]

theorem pyReplaceL_append_left (p : Char) (ps rep : List Char) (l tail : List Char)
    (h : ∀ c ∈ l, c ≠ p) :
    pyReplaceL (l ++ tail) (p :: ps) rep = l ++ pyReplaceL tail (p :: ps) rep := by
  induction l with
  | nil => simp
  | cons c rest ih =>
      have hc : c ≠ p := h c (List.mem_cons_self c rest)
      have hsw : startsWithList (p :: ps) (c :: (rest ++ tail)) = false := by
        simp [startsWithList, Ne.symm hc]
      have hcond : ¬ ((¬ (p :: ps).isEmpty = true) ∧
          startsWithList (p :: ps) (c :: (rest ++ tail)) = true) := by
        simp [hsw]
      show pyReplaceFuel (p :: ps) rep ((c :: (rest ++ tail)).length) (c :: (rest ++ tail)) = _
      rw [List.length_cons,
        show pyReplaceFuel (p :: ps) rep ((rest ++ tail).length + 1) (c :: (rest ++ tail)) =
            c :: pyReplaceFuel (p :: ps) rep ((rest ++ tail).length) (rest ++ tail) from by
          simp only [pyReplaceFuel]
          rw [if_neg hcond]]
      rw [show pyReplaceFuel (p :: ps) rep ((rest ++ tail).length) (rest ++ tail) =
          pyReplaceL (rest ++ tail) (p :: ps) rep from rfl,
        ih fun x hx => h x (List.mem_cons_of_mem c hx)]
      simp

theorem pyReplaceL_match_head (p : Char) (ps rep tail : List Char) :
    pyReplaceL ((p :: ps) ++ tail) (p :: ps) rep = rep ++ pyReplaceL tail (p :: ps) rep := by
  have hsw : startsWithList (p :: ps) ((p :: ps) ++ tail) = true :=
    startsWithList_append_self _ _
  have hcond : (¬ (p :: ps).isEmpty = true) ∧
      startsWithList (p :: ps) (p :: (ps ++ tail)) = true := by
    refine ⟨by simp, ?_⟩
    simpa using hsw
  show pyReplaceFuel (p :: ps) rep (((p :: ps) ++ tail).length) ((p :: ps) ++ tail) = _
  have hlen : ((p :: ps) ++ tail).length = (ps ++ tail).length + 1 := by simp
  rw [hlen,
    show pyReplaceFuel (p :: ps) rep ((ps ++ tail).length + 1) ((p :: ps) ++ tail) =
        rep ++ pyReplaceFuel (p :: ps) rep ((ps ++ tail).length)
          (List.drop ((p :: ps).length - 1) (ps ++ tail)) from by
      simp only [List.cons_append]
      simp only [pyReplaceFuel]
      rw [if_pos hcond]]
  have hdrop : List.drop ((p :: ps).length - 1) (ps ++ tail) = tail := by
    simp only [List.length_cons, Nat.add_sub_cancel]
    exact List.drop_left ps tail
  rw [hdrop]
  exact congrArg (rep ++ ·)
    (pyReplaceFuel_fuel_ge (p :: ps) rep ((ps ++ tail).length) tail (by simp))

theorem pyStripL_cons_nl (l : List Char) : pyStripL ('\n' :: l) = pyStripL l := by
  simp [pyStripL, List.dropWhile_cons, isPySpace]

theorem pyStripL_append_nl (l : List Char) : pyStripL (l ++ ['\n']) = pyStripL l := by
  have hnl : isPySpace '\n' = true := rfl
  unfold pyStripL
  rw [List.dropWhile_append]
  by_cases h : (l.dropWhile isPySpace).isEmpty
  · rw [if_pos h]
    rw [List.isEmpty_iff] at h
    rw [h]
    simp [List.dropWhile_cons, hnl]
  · rw [if_neg h, List.reverse_append]
    simp [List.dropWhile_cons, hnl]

theorem clean_response_fenced (inner : String)
    (hb : ∀ c ∈ inner.data, c ≠ '\x60')
    (hs : pyStrip inner = inner) :
    clean_response ("\x60\x60\x60json\n" ++ inner ++ "\n\x60\x60\x60") = inner := by
  have hsl : pyStripL inner.data = inner.data := congrArg String.data hs
  have hl : ∀ c ∈ ('\n' :: (inner.data ++ ['\n'])), c ≠ '\x60' := by
    intro c hcmem
    rcases List.mem_cons.mp hcmem with rfl | hcmem2
    · decide
    · rcases List.mem_append.mp hcmem2 with hcm | hcm
      · exact hb c hcm
      · rw [List.mem_singleton] at hcm
        subst hcm
        decide
  have hdata : ("\x60\x60\x60json\n" ++ inner ++ "\n\x60\x60\x60").data =
      ("\x60\x60\x60json" : String).data ++
        (('\n' :: (inner.data ++ ['\n'])) ++ ("\x60\x60\x60" : String).data) := by
    have h1 : ("\x60\x60\x60json\n" : String).data =
        ("\x60\x60\x60json" : String).data ++ ['\n'] := rfl
    have h2 : ("\n\x60\x60\x60" : String).data = '\n' :: ("\x60\x60\x60" : String).data := rfl
    simp [String.data_append, h1, h2]
  have e1 : (pyReplace ("\x60\x60\x60json\n" ++ inner ++ "\n\x60\x60\x60")
      "\x60\x60\x60json" "").data =
      ('\n' :: (inner.data ++ ['\n'])) ++ ("\x60\x60\x60" : String).data := by
    show pyReplaceL ("\x60\x60\x60json\n" ++ inner ++ "\n\x60\x60\x60").data
      ("\x60\x60\x60json" : String).data [] = _
    rw [hdata]
    rw [show ("\x60\x60\x60json" : String).data =
        '\x60' :: ("\x60\x60json" : String).data from rfl]
    rw [pyReplaceL_match_head]
    rw [pyReplaceL_append_left '\x60' ("\x60\x60json" : String).data []
      ('\n' :: (inner.data ++ ['\n'])) ("\x60\x60\x60" : String).data hl]
    rw [show pyReplaceL ("\x60\x60\x60" : String).data
        ('\x60' :: ("\x60\x60json" : String).data) [] =
        ("\x60\x60\x60" : String).data from rfl]
    simp
  have e2 : (pyReplace (pyReplace ("\x60\x60\x60json\n" ++ inner ++ "\n\x60\x60\x60")
      "\x60\x60\x60json" "") "\x60\x60\x60" "").data =
      '\n' :: (inner.data ++ ['\n']) := by
    show pyReplaceL (pyReplace ("\x60\x60\x60json\n" ++ inner ++ "\n\x60\x60\x60")
      "\x60\x60\x60json" "").data ("\x60\x60\x60" : String).data [] = _
    rw [e1]
    rw [show ("\x60\x60\x60" : String).data = '\x60' :: ("\x60\x60" : String).data from rfl]
    rw [pyReplaceL_append_left '\x60' ("\x60\x60" : String).data []
      ('\n' :: (inner.data ++ ['\n'])) ('\x60' :: ("\x60\x60" : String).data) hl]
    rw [show pyReplaceL ('\x60' :: ("\x60\x60" : String).data)
        ('\x60' :: ("\x60\x60" : String).data) [] = ([] : List Char) from rfl]
    simp
  show String.mk (pyStripL (pyReplace (pyReplace
    ("\x60\x60\x60json\n" ++ inner ++ "\n\x60\x60\x60") "\x60\x60\x60json" "")
    "\x60\x60\x60" "").data) = inner
  rw [e2, pyStripL_cons_nl, pyStripL_append_nl, hsl]

/-- C7 counterexample: the inner fenced text is valid JSON, but the cleaning
step only removes the fence markers, so the trailing prose survives into the
parser input and the gateway reports the analysis error instead of parsing
successfully. -/
theorem fenced_json_with_trailing_prose_fails :
    json_loads "\x7b\"a\": 1\x7d" = some (.obj [("a", .num "1")]) ∧
    clean_response c7prose = "\x7b\"a\": 1\x7d\n\nThanks!" ∧
    json_loads (clean_response c7prose) = none ∧
    (get_gemini_response (some "k") .companyDiscovery "q" wFil (.text c7prose) 0 0).1 =
      .analysis_error :=
  ⟨rfl, rfl, rfl, rfl⟩

/-- C7 amended: the gateway strips every fence marker and trims whitespace,
then parses; it returns the parsed value exactly when the cleaned text is one
JSON document and the analysis error otherwise.  In particular a fenced valid
JSON document with no surrounding prose (and no stray backticks) parses
successfully, while any text whose cleaned form still fails to parse — such
as fenced JSON followed by prose — is surfaced as the analysis error. -/
theorem fenced_json_parse_behavior (k : String) (hk : k ≠ "")
    (m : Mode) (q : String) (f : Filters) (tu sc : ℚ) :
    (∀ (t : String) (j : Json), json_loads (clean_response t) = some j →
      (get_gemini_response (some k) m q f (.text t) tu sc).1 = .ok j) ∧
    (∀ t : String, json_loads (clean_response t) = none →
      (get_gemini_response (some k) m q f (.text t) tu sc).1 = .analysis_error) ∧
    (∀ (inner : String) (j : Json), (∀ c ∈ inner.data, c ≠ '\x60') →
      pyStrip inner = inner → json_loads inner = some j →
      (get_gemini_response (some k) m q f
        (.text ("\x60\x60\x60json\n" ++ inner ++ "\n\x60\x60\x60")) tu sc).1 = .ok j) := by
  have hkey : initialize_gemini (some k) = true := by simp [initialize_gemini, hk]
  refine ⟨?_, ?_, ?_⟩
  · intro t j hj
    simp [get_gemini_response, hkey, hj]
  · intro t hj
    simp [get_gemini_response, hkey, hj]
  · intro inner j hb hstrip hj
    have hclean := clean_response_fenced inner hb hstrip
    simp [get_gemini_response, hkey, hclean, hj]

theorem fenced_json_parse_behavior_witness :
    ("k" : String) ≠ "" ∧
    (∀ c ∈ ("\x7b\"a\": 1\x7d" : String).data, c ≠ '\x60') ∧
    pyStrip "\x7b\"a\": 1\x7d" = "\x7b\"a\": 1\x7d" ∧
    json_loads "\x7b\"a\": 1\x7d" = some (.obj [("a", .num "1")]) ∧
    (get_gemini_response (some "k") .companyDiscovery "q" wFil
      (.text ("\x60\x60\x60json\n" ++ "\x7b\"a\": 1\x7d" ++ "\n\x60\x60\x60")) 0 0).1 =
      .ok (.obj [("a", .num "1")]) :=
  ⟨by decide, by decide, rfl, rfl,
   (fenced_json_parse_behavior "k" (by decide) .companyDiscovery "q" wFil 0 0).2.2
     "\x7b\"a\": 1\x7d" (.obj [("a", .num "1")]) (by decide) rfl rfl⟩

end CareerGraph
